import Mathlib

/-!
Shallow embedding of the `hextract` color utility library (src/src/index.ts)
and proofs of its specified properties.

The library has three independent parts:
* a hex/RGB codec (`componentToHex`, `rgbToHex`, `rgbToHexString`, `hexToRgb`);
* a WCAG 2.0 luminance/contrast calculator (`luminance`, `contrast`),
  modelled over the real numbers;
* an average-color extractor (`computeAverageColor`), whose synchronous
  control flow, effects and event-driven promise body are modelled as
  explicit data (environment record, image-source variant, decode event,
  effect trace).
-/

namespace Hextract

/-! ### Hex / RGB codec -/

/-- The hex digit character for a value `d < 16`, as produced by JavaScript
`Number.prototype.toString(16)`: `0`-`9` then lowercase `a`-`f`. -/
def hexDigitChar (d : Nat) : Char :=
  Char.ofNat (if d < 10 then 48 + d else 87 + d)

/-- Fuel-driven core of base-16 conversion: prepends the digits of `n`
(most significant first) to `acc`.  Fuel `n + 1` always suffices. -/
def toHexCore : Nat → Nat → List Char → List Char
  | 0, _, acc => acc
  | fuel + 1, n, acc =>
    if n < 16 then hexDigitChar (n % 16) :: acc
    else toHexCore fuel (n / 16) (hexDigitChar (n % 16) :: acc)

/-- The base-16 digit string of a natural number, as produced by JavaScript
`c.toString(16)` on a non-negative integer: lowercase, no padding, `"0"` for 0. -/
def toHexDigits (n : Nat) : List Char :=
  toHexCore (n + 1) n []

/-- `componentToHex` from the source: `c.toString(16)`, left-padded with `"0"`
when the representation is a single character. -/
def componentToHex (c : Nat) : String :=
  let hex := String.mk (toHexDigits c)
  if hex.length = 1 then "0" ++ hex else hex

/-- `rgbToHex` from the source: `#` followed by the three padded components. -/
def rgbToHex (r g b : Nat) : String :=
  "#" ++ componentToHex r ++ componentToHex g ++ componentToHex b

/-- Public `rgbToHexString`, which just calls `rgbToHex`. -/
def rgbToHexString (r g b : Nat) : String :=
  rgbToHex r g b

/-- Character class `[a-f\d]` of the source regex under the `i` flag:
lowercase `a`-`f`, uppercase `A`-`F`, or a decimal digit. -/
def isHexDigit (c : Char) : Bool :=
  ('a' ≤ c && c ≤ 'f') || ('A' ≤ c && c ≤ 'F') || ('0' ≤ c && c ≤ '9')

/-- The numeric value of one hex digit, as assigned by `parseInt(·, 16)`:
digits, then uppercase letters (value = code − 55), then lowercase
(value = code − 87). -/
def hexDigitVal (c : Char) : Nat :=
  if c.toNat ≤ 57 then c.toNat - 48
  else if c.toNat ≤ 70 then c.toNat - 55
  else c.toNat - 87

/-- The characters of `s` after the optional leading `#` of the source regex
`/^#?([a-f\d]{2})([a-f\d]{2})([a-f\d]{2})$/i` has been consumed.
(`#` is not in the class `[a-f\d]`, so a leading `#` can only be matched
by the optional `#?`.) -/
def stripHash (s : String) : List Char :=
  if s.data.head? = some '#' then s.data.tail else s.data

/-- The body of the regex match after the optional `#`: exactly six
characters of the class `[a-f\d]` (ignore-case), grouped in pairs, each
pair parsed with `parseInt(·, 16)`. -/
def parseHexSix : List Char → Option (List Nat)
  | [c1, c2, c3, c4, c5, c6] =>
    if isHexDigit c1 && isHexDigit c2 && isHexDigit c3 &&
       isHexDigit c4 && isHexDigit c5 && isHexDigit c6 then
      some [16 * hexDigitVal c1 + hexDigitVal c2,
            16 * hexDigitVal c3 + hexDigitVal c4,
            16 * hexDigitVal c5 + hexDigitVal c6]
    else none
  | _ => none

/-- `hexToRgb` from the source: match
`/^#?([a-f\d]{2})([a-f\d]{2})([a-f\d]{2})$/i` and parse the three
two-digit groups with `parseInt(·, 16)`; `none` models the thrown
`[hextract] Invalid hex color` error. -/
def hexToRgb (s : String) : Option (List Nat) :=
  parseHexSix (stripHash s)

/-! Spec-side pattern, written from the spec's words `[#]?[0-9a-fA-F]{6}`
(used only to compare against the source-derived `hexToRgb`). -/

/-- A character of the spec's class `[0-9a-fA-F]`. -/
def isSpecHexChar (c : Char) : Bool :=
  ('0' ≤ c && c ≤ '9') || ('a' ≤ c && c ≤ 'f') || ('A' ≤ c && c ≤ 'F')

/-- Whether `s` matches the spec's pattern `[#]?[0-9a-fA-F]{6}` exactly:
after the optional leading `#`, exactly six characters of the class.
(`#` is not in the class, so the optional `#` can only match a leading `#`.) -/
def matchesHexPattern (s : String) : Bool :=
  let cs := if s.data.head? = some '#' then s.data.tail else s.data
  cs.length = 6 && cs.all isSpecHexChar

/-! ### Luminance / contrast (WCAG 2.0)

JavaScript floating-point arithmetic is idealised over `ℝ`; `Math.pow`
becomes real exponentiation `Real.rpow`. -/

/-- The per-channel sRGB-to-linear map applied inside `luminance`:
`v <= 0.03928 ? v / 12.92 : ((v + 0.055) / 1.055) ** 2.4`. -/
noncomputable def srgbLinear (v : ℝ) : ℝ :=
  if v ≤ 0.03928 then v / 12.92 else ((v + 0.055) / 1.055) ^ (2.4 : ℝ)

/-- `luminance` from the source, on integer channel values: normalise each
channel by 255, linearise, and combine with the Rec. 709 weights
`RED = 0.2126`, `GREEN = 0.7152`, `BLUE = 0.0722`. -/
noncomputable def luminance (r g b : Nat) : ℝ :=
  srgbLinear ((r : ℝ) / 255) * 0.2126 +
  srgbLinear ((g : ℝ) / 255) * 0.7152 +
  srgbLinear ((b : ℝ) / 255) * 0.0722

/-- An RGB triple of integer channel values. -/
def RGB : Type := Nat × Nat × Nat

/-- `contrast` from the source: `(max lum + 0.05) / (min lum + 0.05)`. -/
noncomputable def contrast (c1 c2 : RGB) : ℝ :=
  let lum1 := luminance c1.1 c1.2.1 c1.2.2
  let lum2 := luminance c2.1 c2.2.1 c2.2.2
  (max lum1 lum2 + 0.05) / (min lum1 lum2 + 0.05)

/-- All three components of a triple are valid channel values. -/
def validRGB (c : RGB) : Prop :=
  c.1 ≤ 255 ∧ c.2.1 ≤ 255 ∧ c.2.2 ≤ 255

instance (c : RGB) : Decidable (validRGB c) := by
  unfold validRGB
  infer_instance

/-! ### Average-color extractor

The decoded image handed to `img.onload` is modelled as the list of RGBA
pixels of the canvas readback (`ImageData` packs exactly 4 bytes per pixel,
so `imageData.data.length / 4` is the pixel count).  The JavaScript numeric
values reached on this path are naturals, rationals, `NaN` and the two
infinities, so that fragment of the JS number line is embedded exactly. -/

/-- One RGBA pixel of the decoded image. -/
structure RGBA where
  r : Nat
  g : Nat
  b : Nat
  a : Nat

/-- The fragment of the JavaScript number line produced by `r / count`. -/
inductive JsNum where
  | num (q : ℚ)
  | nan
  | inf
  | ninf
deriving DecidableEq

/-- The values produced by `Math.floor` on a `JsNum`. -/
inductive JsFloored where
  | int (n : ℤ)
  | nan
  | inf
  | ninf
deriving DecidableEq

/-- JavaScript division `a / b` on finite operands: `0 / 0` is `NaN`,
`a / 0` for `a ≠ 0` is a signed infinity, otherwise exact. -/
def jsDiv (a b : ℚ) : JsNum :=
  if b = 0 then
    if a = 0 then JsNum.nan else if 0 < a then JsNum.inf else JsNum.ninf
  else JsNum.num (a / b)

/-- `Math.floor`: floor on finite values, identity on `NaN` and infinities. -/
def jsFloor : JsNum → JsFloored
  | JsNum.num q => JsFloored.int ⌊q⌋
  | JsNum.nan => JsFloored.nan
  | JsNum.inf => JsFloored.inf
  | JsNum.ninf => JsFloored.ninf

/-- `c.toString(16)` on a floored JavaScript number: `NaN` prints `"NaN"`,
infinities print `"Infinity"`/`"-Infinity"`, integers print in base 16
(with a leading `-` when negative). -/
def jsToString16 : JsFloored → String
  | JsFloored.int n =>
    if n < 0 then "-" ++ String.mk (toHexDigits n.natAbs)
    else String.mk (toHexDigits n.toNat)
  | JsFloored.nan => "NaN"
  | JsFloored.inf => "Infinity"
  | JsFloored.ninf => "-Infinity"

/-- `componentToHex` as reached from `computeAverageColor`, where the
argument is a floored JavaScript number rather than a known natural. -/
def componentToHexJs (c : JsFloored) : String :=
  let hex := jsToString16 c
  if hex.length = 1 then "0" ++ hex else hex

/-- `rgbToHex` on floored JavaScript numbers. -/
def rgbToHexJs (r g b : JsFloored) : String :=
  "#" ++ componentToHexJs r ++ componentToHexJs g ++ componentToHexJs b

/-- Sum of the red channel over the pixels (the `r += imageData.data[i]`
accumulation; rational addition is associative and commutative, so the
accumulation order of the loop does not matter). -/
def sumR : List RGBA → Nat
  | [] => 0
  | p :: ps => p.r + sumR ps

/-- Sum of the green channel over the pixels. -/
def sumG : List RGBA → Nat
  | [] => 0
  | p :: ps => p.g + sumG ps

/-- Sum of the blue channel over the pixels. -/
def sumB : List RGBA → Nat
  | [] => 0
  | p :: ps => p.b + sumB ps

/-- The body of `img.onload` after a successful `getImageData`: sum the
R, G, B channels (alpha is skipped), set `count = data.length / 4`
(the pixel count), divide, `Math.floor`, and format with `rgbToHex`. -/
def averageColorOnLoad (data : List RGBA) : String :=
  let count : ℚ := data.length
  let r := jsFloor (jsDiv (sumR data) count)
  let g := jsFloor (jsDiv (sumG data) count)
  let b := jsFloor (jsDiv (sumB data) count)
  rgbToHexJs r g b

/-! ### Control flow, effects and events of `computeAverageColor` -/

/-- The host environment capabilities probed by `computeAverageColor`. -/
structure Env where
  hasWindow : Bool
  hasDocument : Bool
  has2dContext : Bool

/-- The mutable fields of an image element that this code touches. -/
structure ImgElem where
  src : String
  crossOrigin : Option String
deriving DecidableEq

/-- A fresh `new Image()`: empty `src`, null `crossOrigin`. -/
def freshImg : ImgElem :=
  { src := "", crossOrigin := none }

/-- The `imageSource` argument: an `HTMLImageElement`, a URL string, a
`File` (carrying the object URL that `URL.createObjectURL` returns for it),
or a value of none of those types (reachable from untyped JavaScript). -/
inductive ImageSource where
  | element (e : ImgElem)
  | url (s : String)
  | file (objectUrl : String)
  | other
deriving DecidableEq

/-- The errors `computeAverageColor` can reject or throw with. -/
inductive HexErr where
  | environmentError
  | contextError
  | invalidSource
  | loadError
  | processError (msg : String)
deriving DecidableEq

/-- Observable side effects of a `computeAverageColor` run. -/
inductive Effect where
  | createCanvas
  | createObjectURL (u : String)
  | revokeObjectURL (u : String)
deriving DecidableEq

/-- The single decode event delivered to the promise body: `img.onerror`,
or `img.onload` where `getImageData` either throws (cross-origin taint,
carried as `Except.error msg`) or returns the pixels. -/
inductive DecodeEvent where
  | onError
  | onLoad (imageData : Except String (List RGBA))

/-- The input-type dispatch block: starting from the fresh `img`, perform
the field assignments of the matching branch; `none` models the thrown
`[hextract] Invalid image source type`.  Also records the
`URL.createObjectURL` effect of the `File` branch. -/
def handleSource (src : ImageSource) (img : ImgElem) :
    Option (ImgElem × List Effect) :=
  match src with
  | ImageSource.element e =>
    some ({ img with src := e.src, crossOrigin := e.crossOrigin }, [])
  | ImageSource.url s =>
    some ({ img with src := s, crossOrigin := some "anonymous" }, [])
  | ImageSource.file u =>
    some ({ img with src := u }, [Effect.createObjectURL u])
  | ImageSource.other => none

/-- Outcome of one `computeAverageColor` run. -/
structure RunOut where
  result : Except HexErr String
  effects : List Effect
  finalSource : ImageSource

/-- Whether the `imageSource instanceof File` cleanup guard holds. -/
def isFileSource : ImageSource → Bool
  | ImageSource.file _ => true
  | _ => false

/-- `computeAverageColor`, deterministic in the decode event `ev`:
1. fail with `environmentError` when `window` or `document` is missing
   (before any other step);
2. create the canvas; fail with `contextError` when no 2d context;
3. dispatch on the input variant (assigning only fields of the fresh
   `img`; the input element is never written, so the final source state
   is the input unchanged);
4. run the promise body on `ev`: `onerror` rejects with `loadError`;
   `onload` with a throwing `getImageData` rejects with `processError`
   and performs no cleanup; `onload` with pixel data resolves with
   `averageColorOnLoad` and then revokes `img.src` when the input was a
   `File`. -/
def computeAverageColorRun (env : Env) (src : ImageSource) (ev : DecodeEvent) :
    RunOut :=
  if !env.hasWindow || !env.hasDocument then
    { result := Except.error HexErr.environmentError, effects := [],
      finalSource := src }
  else if !env.has2dContext then
    { result := Except.error HexErr.contextError,
      effects := [Effect.createCanvas], finalSource := src }
  else
    match handleSource src freshImg with
    | none =>
      { result := Except.error HexErr.invalidSource,
        effects := [Effect.createCanvas], finalSource := src }
    | some (img, setupEffects) =>
      match ev with
      | DecodeEvent.onError =>
        { result := Except.error HexErr.loadError,
          effects := Effect.createCanvas :: setupEffects,
          finalSource := src }
      | DecodeEvent.onLoad (Except.error msg) =>
        { result := Except.error (HexErr.processError msg),
          effects := Effect.createCanvas :: setupEffects,
          finalSource := src }
      | DecodeEvent.onLoad (Except.ok data) =>
        { result := Except.ok (averageColorOnLoad data),
          effects := Effect.createCanvas :: setupEffects ++
            (if isFileSource src then [Effect.revokeObjectURL img.src] else []),
          finalSource := src }

/-- Number of `URL.revokeObjectURL` calls in an effect trace. -/
def countRevokes (effs : List Effect) : Nat :=
  effs.countP (fun e => match e with
    | Effect.revokeObjectURL _ => true
    | _ => false)

/-! ### Codec lemmas -/

theorem hexVal_hexDigitChar : ∀ d < 16, hexDigitVal (hexDigitChar d) = d := by
  decide

theorem isHexDigit_hexDigitChar : ∀ d < 16, isHexDigit (hexDigitChar d) = true := by
  decide

theorem hexDigitChar_ne_hash : ∀ d < 16, hexDigitChar d ≠ '#' := by
  decide

theorem toHexDigits_of_lt16 (c : Nat) (h : c < 16) :
    toHexDigits c = [hexDigitChar c] := by
  unfold toHexDigits toHexCore
  simp [h, Nat.mod_eq_of_lt h]

theorem toHexDigits_of_two_digits (c : Nat) (h16 : 16 ≤ c) (h : c < 256) :
    toHexDigits c = [hexDigitChar (c / 16), hexDigitChar (c % 16)] := by
  obtain ⟨k, rfl⟩ : ∃ k, c = k + 16 := ⟨c - 16, by omega⟩
  have hd : (k + 16) / 16 < 16 := by omega
  have hne : ¬ (k + 16 < 16) := by omega
  unfold toHexDigits
  rw [toHexCore, if_neg hne]
  obtain ⟨m, hm⟩ : ∃ m, k + 16 = m + 1 := ⟨k + 15, by omega⟩
  rw [hm] at hd
  rw [hm, toHexCore, if_pos hd, Nat.mod_eq_of_lt hd]

theorem componentToHex_eq (c : Nat) (h : c < 256) :
    componentToHex c = String.mk [hexDigitChar (c / 16), hexDigitChar (c % 16)] := by
  by_cases h16 : c < 16
  · have hdiv : c / 16 = 0 := Nat.div_eq_of_lt h16
    have hmod : c % 16 = c := Nat.mod_eq_of_lt h16
    rw [componentToHex, toHexDigits_of_lt16 c h16]
    simp only [hdiv, hmod]
    rfl
  · rw [componentToHex, toHexDigits_of_two_digits c (by omega) h]
    rfl

theorem rgbToHex_data (r g b : Nat) (hr : r < 256) (hg : g < 256) (hb : b < 256) :
    (rgbToHex r g b).data =
      ['#', hexDigitChar (r / 16), hexDigitChar (r % 16),
            hexDigitChar (g / 16), hexDigitChar (g % 16),
            hexDigitChar (b / 16), hexDigitChar (b % 16)] := by
  rw [rgbToHex, componentToHex_eq r hr, componentToHex_eq g hg,
    componentToHex_eq b hb]
  rfl

/-- **C1.** For all integers `r`, `g`, `b` in `[0, 255]`,
`hexToRgb (rgbToHexString r g b) = [r, g, b]`: the codec round-trips
without error. -/
theorem hexToRgb_rgbToHexString_roundTrip (r g b : Nat)
    (hr : r ≤ 255) (hg : g ≤ 255) (hb : b ≤ 255) :
    hexToRgb (rgbToHexString r g b) = some [r, g, b] := by
  have hdata := rgbToHex_data r g b (by omega) (by omega) (by omega)
  have hstrip : stripHash (rgbToHexString r g b) =
      [hexDigitChar (r / 16), hexDigitChar (r % 16),
       hexDigitChar (g / 16), hexDigitChar (g % 16),
       hexDigitChar (b / 16), hexDigitChar (b % 16)] := by
    rw [stripHash, rgbToHexString, hdata]
    rfl
  have hdig : ∀ x : Nat, x < 256 → x / 16 < 16 ∧ x % 16 < 16 := by
    intro x hx
    omega
  obtain ⟨hr1, hr2⟩ := hdig r (by omega)
  obtain ⟨hg1, hg2⟩ := hdig g (by omega)
  obtain ⟨hb1, hb2⟩ := hdig b (by omega)
  rw [hexToRgb, hstrip]
  simp only [parseHexSix]
  rw [if_pos]
  · rw [hexVal_hexDigitChar _ hr1, hexVal_hexDigitChar _ hr2,
      hexVal_hexDigitChar _ hg1, hexVal_hexDigitChar _ hg2,
      hexVal_hexDigitChar _ hb1, hexVal_hexDigitChar _ hb2]
    have : ∀ x : Nat, 16 * (x / 16) + x % 16 = x := by
      intro x
      omega
    rw [this r, this g, this b]
  · rw [isHexDigit_hexDigitChar _ hr1, isHexDigit_hexDigitChar _ hr2,
      isHexDigit_hexDigitChar _ hg1, isHexDigit_hexDigitChar _ hg2,
      isHexDigit_hexDigitChar _ hb1, isHexDigit_hexDigitChar _ hb2]
    rfl

/-- Witness for C1 at `(255, 87, 51)`. -/
theorem hexToRgb_rgbToHexString_roundTrip_witness :
    hexToRgb (rgbToHexString 255 87 51) = some [255, 87, 51] :=
  hexToRgb_rgbToHexString_roundTrip 255 87 51 (by decide) (by decide) (by decide)

theorem isSpecHexChar_eq_isHexDigit (c : Char) :
    isSpecHexChar c = isHexDigit c := by
  rw [isSpecHexChar, isHexDigit, Bool.or_assoc, Bool.or_comm]

theorem all_isSpecHexChar_eq (cs : List Char) :
    cs.all isSpecHexChar = cs.all isHexDigit := by
  induction cs with
  | nil => rfl
  | cons c t ih => simp [List.all_cons, ih, isSpecHexChar_eq_isHexDigit]

theorem matchesHexPattern_eq (s : String) :
    matchesHexPattern s =
      ((stripHash s).length = 6 && (stripHash s).all isHexDigit) := by
  rw [matchesHexPattern, stripHash, all_isSpecHexChar_eq]

theorem parseHexSix_none_iff (cs : List Char) :
    parseHexSix cs = none ↔ ¬(cs.length = 6 ∧ cs.all isHexDigit = true) := by
  rcases cs with _ | ⟨c1, _ | ⟨c2, _ | ⟨c3, _ | ⟨c4, _ | ⟨c5, _ | ⟨c6, _ | ⟨c7, t⟩⟩⟩⟩⟩⟩⟩ <;>
    simp [parseHexSix, List.all_cons]

/-- The three admissible code-point ranges of a hex digit:
lowercase `a`-`f`, uppercase `A`-`F`, or `0`-`9`. -/
theorem isHexDigit_ranges (c : Char) (h : isHexDigit c = true) :
    (97 ≤ c.toNat ∧ c.toNat ≤ 102) ∨ (65 ≤ c.toNat ∧ c.toNat ≤ 70) ∨
    (48 ≤ c.toNat ∧ c.toNat ≤ 57) := by
  rw [isHexDigit] at h
  simp only [Bool.or_eq_true, Bool.and_eq_true, decide_eq_true_eq,
    Char.le_def, UInt32.le_def, BitVec.le_def] at h
  simp only [show ∀ x : Char, x.val.toBitVec.toNat = x.toNat from fun _ => rfl,
    show ('a' : Char).toNat = 97 from rfl, show ('f' : Char).toNat = 102 from rfl,
    show ('A' : Char).toNat = 65 from rfl, show ('F' : Char).toNat = 70 from rfl,
    show ('0' : Char).toNat = 48 from rfl, show ('9' : Char).toNat = 57 from rfl] at h
  tauto

theorem hexVal_lt_16 (c : Char) (h : isHexDigit c = true) : hexDigitVal c < 16 := by
  have hr := isHexDigit_ranges c h
  rw [hexDigitVal]
  split <;> [skip; split] <;> omega

/-- **C5.** `hexToRgb` fails exactly on the strings that do not match
`[#]?[0-9a-fA-F]{6}`; on success it returns a triple of values in
`[0, 255]`; it fails on `"xyz123"`, `"#fff"` and `""`, and accepts both
`"ff5733"` and `"#FF5733"` as `[255, 87, 51]`. -/
theorem hexToRgb_invalidFormat_iff :
    (∀ s : String, hexToRgb s = none ↔ matchesHexPattern s = false) ∧
    (∀ (s : String) (l : List Nat), hexToRgb s = some l →
      ∃ r g b, l = [r, g, b] ∧ r ≤ 255 ∧ g ≤ 255 ∧ b ≤ 255) ∧
    hexToRgb "xyz123" = none ∧ hexToRgb "#fff" = none ∧ hexToRgb "" = none ∧
    hexToRgb "ff5733" = some [255, 87, 51] ∧
    hexToRgb "#FF5733" = some [255, 87, 51] := by
  refine ⟨?_, ?_, by decide, by decide, by decide, by decide, by decide⟩
  · intro s
    rw [hexToRgb, parseHexSix_none_iff, matchesHexPattern_eq]
    simp
  · intro s l h
    rw [hexToRgb] at h
    rcases hcs : stripHash s with _ | ⟨c1, _ | ⟨c2, _ | ⟨c3, _ | ⟨c4, _ |
      ⟨c5, _ | ⟨c6, _ | ⟨c7, t⟩⟩⟩⟩⟩⟩⟩ <;> rw [hcs] at h
    all_goals try exact Option.noConfusion h
    simp only [parseHexSix] at h
    by_cases hcond : (isHexDigit c1 && isHexDigit c2 && isHexDigit c3 &&
        isHexDigit c4 && isHexDigit c5 && isHexDigit c6) = true
    · rw [if_pos hcond] at h
      simp only [Bool.and_eq_true] at hcond
      obtain ⟨⟨⟨⟨⟨h1, h2⟩, h3⟩, h4⟩, h5⟩, h6⟩ := hcond
      refine ⟨_, _, _, (Option.some.inj h).symm, ?_, ?_, ?_⟩
      · have := hexVal_lt_16 c1 h1
        have := hexVal_lt_16 c2 h2
        omega
      · have := hexVal_lt_16 c3 h3
        have := hexVal_lt_16 c4 h4
        omega
      · have := hexVal_lt_16 c5 h5
        have := hexVal_lt_16 c6 h6
        omega
    · rw [if_neg hcond] at h
      exact absurd h (by simp)

/-- Witness for C5: instantiating the success clause at `"ff5733"`. -/
theorem hexToRgb_invalidFormat_iff_witness :
    (hexToRgb "ff5733" = none ↔ matchesHexPattern "ff5733" = false) ∧
    (∃ r g b, ([255, 87, 51] : List Nat) = [r, g, b] ∧
      r ≤ 255 ∧ g ≤ 255 ∧ b ≤ 255) :=
  ⟨hexToRgb_invalidFormat_iff.1 "ff5733",
   hexToRgb_invalidFormat_iff.2.1 "ff5733" [255, 87, 51] (by decide)⟩

/-- Re-encoding the value of a hex digit yields that digit lowercased. -/
theorem hexDigitChar_hexVal (c : Char) (h : isHexDigit c = true) :
    hexDigitChar (hexDigitVal c) = c.toLower := by
  rcases isHexDigit_ranges c h with ⟨h1, h2⟩ | ⟨h1, h2⟩ | ⟨h1, h2⟩
  · have hv : hexDigitVal c = c.toNat - 87 := by
      rw [hexDigitVal, if_neg (by omega), if_neg (by omega)]
    rw [hv, hexDigitChar, if_neg (by omega)]
    have he : 87 + (c.toNat - 87) = c.toNat := by omega
    rw [he, Char.ofNat_toNat, Char.toLower, if_neg (by omega)]
  · have hv : hexDigitVal c = c.toNat - 55 := by
      rw [hexDigitVal, if_neg (by omega), if_pos (by omega)]
    rw [hv, hexDigitChar, if_neg (by omega)]
    have he : 87 + (c.toNat - 55) = c.toNat + 32 := by omega
    rw [he, Char.toLower, if_pos (by omega)]
  · have hv : hexDigitVal c = c.toNat - 48 := by
      rw [hexDigitVal, if_pos (by omega)]
    rw [hv, hexDigitChar, if_pos (by omega)]
    have he : 48 + (c.toNat - 48) = c.toNat := by omega
    rw [he, Char.ofNat_toNat, Char.toLower, if_neg (by omega)]

/-- **C9.** Reverse round-trip: whenever `hexToRgb` accepts `s` as
`[r, g, b]`, re-encoding gives `#` followed by the six hex digits of `s`
lowercased — the codec normalises accepted input to canonical lowercase
`#rrggbb` form. -/
theorem rgbToHexString_hexToRgb_normalises (s : String) (r g b : Nat)
    (h : hexToRgb s = some [r, g, b]) :
    rgbToHexString r g b = String.mk ('#' :: (stripHash s).map Char.toLower) := by
  rw [hexToRgb] at h
  rcases hcs : stripHash s with _ | ⟨c1, _ | ⟨c2, _ | ⟨c3, _ | ⟨c4, _ |
    ⟨c5, _ | ⟨c6, _ | ⟨c7, t⟩⟩⟩⟩⟩⟩⟩ <;> rw [hcs] at h
  all_goals try exact Option.noConfusion h
  simp only [parseHexSix] at h
  by_cases hcond : (isHexDigit c1 && isHexDigit c2 && isHexDigit c3 &&
      isHexDigit c4 && isHexDigit c5 && isHexDigit c6) = true
  · rw [if_pos hcond] at h
    simp only [Bool.and_eq_true] at hcond
    obtain ⟨⟨⟨⟨⟨h1, h2⟩, h3⟩, h4⟩, h5⟩, h6⟩ := hcond
    have hl := Option.some.inj h
    have hr : r = 16 * hexDigitVal c1 + hexDigitVal c2 := by
      injection hl with e1 _
      exact e1.symm
    have hg : g = 16 * hexDigitVal c3 + hexDigitVal c4 := by
      injection hl with _ e
      injection e with e2 _
      exact e2.symm
    have hb : b = 16 * hexDigitVal c5 + hexDigitVal c6 := by
      injection hl with _ e
      injection e with _ e
      injection e with e3 _
      exact e3.symm
    have hv1 := hexVal_lt_16 c1 h1
    have hv2 := hexVal_lt_16 c2 h2
    have hv3 := hexVal_lt_16 c3 h3
    have hv4 := hexVal_lt_16 c4 h4
    have hv5 := hexVal_lt_16 c5 h5
    have hv6 := hexVal_lt_16 c6 h6
    apply String.ext
    rw [rgbToHexString, rgbToHex_data r g b (by omega) (by omega) (by omega)]
    have er1 : r / 16 = hexDigitVal c1 := by omega
    have er2 : r % 16 = hexDigitVal c2 := by omega
    have eg1 : g / 16 = hexDigitVal c3 := by omega
    have eg2 : g % 16 = hexDigitVal c4 := by omega
    have eb1 : b / 16 = hexDigitVal c5 := by omega
    have eb2 : b % 16 = hexDigitVal c6 := by omega
    rw [er1, er2, eg1, eg2, eb1, eb2,
      hexDigitChar_hexVal c1 h1, hexDigitChar_hexVal c2 h2,
      hexDigitChar_hexVal c3 h3, hexDigitChar_hexVal c4 h4,
      hexDigitChar_hexVal c5 h5, hexDigitChar_hexVal c6 h6]
    rfl
  · rw [if_neg hcond] at h
    exact Option.noConfusion h

/-- Witness for C9 at the mixed-case input `"#FF5733"`. -/
theorem rgbToHexString_hexToRgb_normalises_witness :
    rgbToHexString 255 87 51 =
      String.mk ('#' :: (stripHash "#FF5733").map Char.toLower) :=
  rgbToHexString_hexToRgb_normalises "#FF5733" 255 87 51 (by decide)

/-! ### Luminance and contrast lemmas -/

theorem srgbLinear_nonneg (v : ℝ) (hv : 0 ≤ v) : 0 ≤ srgbLinear v := by
  rw [srgbLinear]
  split
  · positivity
  · apply Real.rpow_nonneg
    positivity

theorem srgbLinear_le_one (v : ℝ) (hv0 : 0 ≤ v) (hv : v ≤ 1) :
    srgbLinear v ≤ 1 := by
  rw [srgbLinear]
  split
  · rw [div_le_one (by norm_num)]
    linarith
  · apply Real.rpow_le_one (by positivity)
    · rw [div_le_one (by norm_num)]
      linarith
    · norm_num

theorem luminance_nonneg (r g b : Nat) : 0 ≤ luminance r g b := by
  rw [luminance]
  have h1 := srgbLinear_nonneg ((r : ℝ) / 255) (by positivity)
  have h2 := srgbLinear_nonneg ((g : ℝ) / 255) (by positivity)
  have h3 := srgbLinear_nonneg ((b : ℝ) / 255) (by positivity)
  nlinarith

theorem luminance_le_one (r g b : Nat)
    (hr : r ≤ 255) (hg : g ≤ 255) (hb : b ≤ 255) : luminance r g b ≤ 1 := by
  have hchan : ∀ x : Nat, x ≤ 255 → srgbLinear ((x : ℝ) / 255) ≤ 1 := by
    intro x hx
    apply srgbLinear_le_one _ (by positivity)
    rw [div_le_one (by norm_num)]
    exact_mod_cast Nat.cast_le.mpr hx
  have h1 := hchan r hr
  have h2 := hchan g hg
  have h3 := hchan b hb
  have n1 := srgbLinear_nonneg ((r : ℝ) / 255) (by positivity)
  have n2 := srgbLinear_nonneg ((g : ℝ) / 255) (by positivity)
  have n3 := srgbLinear_nonneg ((b : ℝ) / 255) (by positivity)
  rw [luminance]
  nlinarith

theorem luminance_black : luminance 0 0 0 = 0 := by
  rw [luminance, srgbLinear]
  norm_num

theorem luminance_white : luminance 255 255 255 = 1 := by
  rw [luminance, srgbLinear]
  have h255 : ((255 : Nat) : ℝ) / 255 = 1 := by
    norm_num
  rw [h255, if_neg (by norm_num)]
  have hbase : ((1 : ℝ) + 0.055) / 1.055 = 1 := by
    norm_num
  rw [hbase, Real.one_rpow]
  norm_num

/-- **C2.** For all valid triples the contrast ratio lies in `[1, 21]`,
and `contrast([0,0,0], [255,255,255])` is exactly `21`. -/
theorem contrast_range :
    (∀ a b : RGB, validRGB a → validRGB b →
      1 ≤ contrast a b ∧ contrast a b ≤ 21) ∧
    contrast (0, 0, 0) (255, 255, 255) = 21 := by
  constructor
  · intro a b ha hb
    obtain ⟨ha1, ha2, ha3⟩ := ha
    obtain ⟨hb1, hb2, hb3⟩ := hb
    rw [contrast]
    set l1 := luminance a.1 a.2.1 a.2.2 with hl1
    set l2 := luminance b.1 b.2.1 b.2.2 with hl2
    have p1 : 0 ≤ l1 := luminance_nonneg _ _ _
    have p2 : 0 ≤ l2 := luminance_nonneg _ _ _
    have q1 : l1 ≤ 1 := luminance_le_one _ _ _ ha1 ha2 ha3
    have q2 : l2 ≤ 1 := luminance_le_one _ _ _ hb1 hb2 hb3
    have hminpos : (0 : ℝ) < min l1 l2 + 0.05 := by
      have := le_min p1 p2
      linarith
    constructor
    · rw [le_div_iff₀ hminpos]
      have := min_le_max (a := l1) (b := l2)
      linarith
    · rw [div_le_iff₀ hminpos]
      have hmax1 : max l1 l2 ≤ 1 := max_le q1 q2
      have hmin0 : 0 ≤ min l1 l2 := le_min p1 p2
      linarith
  · rw [contrast]
    simp only [luminance_black, luminance_white]
    rw [max_eq_right (by norm_num : (0:ℝ) ≤ 1),
      min_eq_left (by norm_num : (0:ℝ) ≤ 1)]
    norm_num

/-- Witness for C2 at black and white. -/
theorem contrast_range_witness :
    1 ≤ contrast (0, 0, 0) (255, 255, 255) ∧
    contrast (0, 0, 0) (255, 255, 255) ≤ 21 :=
  contrast_range.1 (0, 0, 0) (255, 255, 255) (by decide) (by decide)

/-- **C7.** `contrast` is symmetric, and the contrast of a triple with
itself is exactly `1`. -/
theorem contrast_symm_and_self :
    (∀ a b : RGB, validRGB a → validRGB b → contrast a b = contrast b a) ∧
    (∀ c : RGB, validRGB c → contrast c c = 1) := by
  constructor
  · intro a b _ _
    rw [contrast, contrast]
    rw [max_comm, min_comm]
  · intro c _
    rw [contrast]
    simp only [max_self, min_self]
    have hpos : 0 ≤ luminance c.1 c.2.1 c.2.2 := luminance_nonneg _ _ _
    apply div_self
    positivity

/-- Witness for C7 at `(12, 34, 56)` and `(254, 1, 128)`. -/
theorem contrast_symm_and_self_witness :
    contrast (12, 34, 56) (254, 1, 128) = contrast (254, 1, 128) (12, 34, 56) ∧
    contrast (12, 34, 56) (12, 34, 56) = 1 :=
  ⟨contrast_symm_and_self.1 (12, 34, 56) (254, 1, 128) (by decide) (by decide),
   contrast_symm_and_self.2 (12, 34, 56) (by decide)⟩

/-! ### Average-color lemmas -/

theorem sumR_append (l1 l2 : List RGBA) : sumR (l1 ++ l2) = sumR l1 + sumR l2 := by
  induction l1 with
  | nil => simp [sumR]
  | cons p t ih => simp [sumR, ih]; omega

theorem sumG_append (l1 l2 : List RGBA) : sumG (l1 ++ l2) = sumG l1 + sumG l2 := by
  induction l1 with
  | nil => simp [sumG]
  | cons p t ih => simp [sumG, ih]; omega

theorem sumB_append (l1 l2 : List RGBA) : sumB (l1 ++ l2) = sumB l1 + sumB l2 := by
  induction l1 with
  | nil => simp [sumB]
  | cons p t ih => simp [sumB, ih]; omega

theorem sumR_replicate (n : Nat) (p : RGBA) :
    sumR (List.replicate n p) = n * p.r := by
  induction n with
  | zero => simp [List.replicate, sumR]
  | succ m ih => rw [List.replicate_succ, sumR, ih]; ring

theorem sumG_replicate (n : Nat) (p : RGBA) :
    sumG (List.replicate n p) = n * p.g := by
  induction n with
  | zero => simp [List.replicate, sumG]
  | succ m ih => rw [List.replicate_succ, sumG, ih]; ring

theorem sumB_replicate (n : Nat) (p : RGBA) :
    sumB (List.replicate n p) = n * p.b := by
  induction n with
  | zero => simp [List.replicate, sumB]
  | succ m ih => rw [List.replicate_succ, sumB, ih]; ring

theorem componentToHexJs_int (n : ℤ) (h : 0 ≤ n) :
    componentToHexJs (JsFloored.int n) = componentToHex n.toNat := by
  have hs : jsToString16 (JsFloored.int n) = String.mk (toHexDigits n.toNat) := by
    rw [jsToString16, if_neg (by omega)]
  rw [componentToHexJs, hs, componentToHex]

/-- Dividing a channel sum by a nonzero pixel count and flooring is exactly
natural division. -/
theorem jsFloor_jsDiv_eq_natDiv (m n : Nat) (hn : n ≠ 0) :
    jsFloor (jsDiv (m : ℚ) (n : ℚ)) = JsFloored.int ((m / n : Nat) : ℤ) := by
  rw [jsDiv, if_neg (by exact_mod_cast hn), jsFloor]
  congr 1
  have hfloor : ⌊((m : ℚ) / (n : ℚ))⌋₊ = m / n := Nat.floor_div_eq_div m n
  have hnn : (0 : ℚ) ≤ (m : ℚ) / (n : ℚ) := by positivity
  have h0 : 0 ≤ ⌊((m : ℚ) / (n : ℚ))⌋ := Int.floor_nonneg.mpr hnn
  have ht : ⌊((m : ℚ) / (n : ℚ))⌋.toNat = m / n := by
    rw [Int.floor_toNat, hfloor]
  omega

theorem averageColorOnLoad_eq_mean (data : List RGBA) (h : data ≠ []) :
    averageColorOnLoad data =
      rgbToHexString (sumR data / data.length) (sumG data / data.length)
        (sumB data / data.length) := by
  have hlen : data.length ≠ 0 := by
    simpa using h
  rw [averageColorOnLoad,
    jsFloor_jsDiv_eq_natDiv (sumR data) data.length hlen,
    jsFloor_jsDiv_eq_natDiv (sumG data) data.length hlen,
    jsFloor_jsDiv_eq_natDiv (sumB data) data.length hlen,
    rgbToHexJs,
    componentToHexJs_int _ (Int.natCast_nonneg _),
    componentToHexJs_int _ (Int.natCast_nonneg _),
    componentToHexJs_int _ (Int.natCast_nonneg _)]
  rw [rgbToHexString, rgbToHex]
  simp only [Int.toNat_natCast]

/-- **C3.** On a successful decode, the resolved color is
`rgbToHexString` of the per-channel arithmetic means truncated to
integers; a solid-color image yields exactly that color, and a
half-black/half-white image yields `127` in every channel. -/
theorem computeAverageColor_mean :
    (∀ (s : String) (data : List RGBA),
      (computeAverageColorRun ⟨true, true, true⟩ (ImageSource.url s)
        (DecodeEvent.onLoad (Except.ok data))).result =
        Except.ok (averageColorOnLoad data)) ∧
    (∀ data : List RGBA, data ≠ [] →
      averageColorOnLoad data =
        rgbToHexString (sumR data / data.length) (sumG data / data.length)
          (sumB data / data.length)) ∧
    (∀ (n r g b a : Nat), 0 < n →
      averageColorOnLoad (List.replicate n ⟨r, g, b, a⟩) =
        rgbToHexString r g b) ∧
    (∀ n : Nat, 0 < n →
      averageColorOnLoad (List.replicate n ⟨0, 0, 0, 255⟩ ++
          List.replicate n ⟨255, 255, 255, 255⟩) =
        rgbToHexString 127 127 127) := by
  refine ⟨fun s data => rfl, averageColorOnLoad_eq_mean, ?_, ?_⟩
  · intro n r g b a hn
    rw [averageColorOnLoad_eq_mean _ (by simp [List.replicate]; omega)]
    rw [sumR_replicate, sumG_replicate, sumB_replicate, List.length_replicate]
    rw [Nat.mul_div_cancel_left _ hn, Nat.mul_div_cancel_left _ hn,
      Nat.mul_div_cancel_left _ hn]
  · intro n hn
    have hne : (List.replicate n (RGBA.mk 0 0 0 255) ++
        List.replicate n (RGBA.mk 255 255 255 255)) ≠ [] := by
      simp [List.replicate]
      omega
    rw [averageColorOnLoad_eq_mean _ hne]
    rw [sumR_append, sumG_append, sumB_append,
      sumR_replicate, sumG_replicate, sumB_replicate,
      sumR_replicate, sumG_replicate, sumB_replicate,
      List.length_append, List.length_replicate, List.length_replicate]
    simp only []
    have hdiv : (n * 0 + n * 255) / (n + n) = 127 := by
      have h1 : n * 0 + n * 255 = n + (n + n) * 127 := by ring
      rw [h1, Nat.add_mul_div_left _ _ (by omega), Nat.div_eq_of_lt (by omega)]
    rw [hdiv]

/-- Witness for C3: a 2-pixel half-black/half-white image averages to
channel value 127, and the solid-color clause at one red pixel. -/
theorem computeAverageColor_mean_witness :
    averageColorOnLoad (List.replicate 1 ⟨0, 0, 0, 255⟩ ++
        List.replicate 1 ⟨255, 255, 255, 255⟩) = rgbToHexString 127 127 127 ∧
    averageColorOnLoad (List.replicate 1 ⟨255, 0, 0, 255⟩) =
      rgbToHexString 255 0 0 :=
  ⟨computeAverageColor_mean.2.2.2 1 (by decide),
   computeAverageColor_mean.2.2.1 1 255 0 0 255 (by decide)⟩

/-- **C8.** The division by the pixel count is unguarded: on a decoded
image with zero pixels each channel is `0 / 0 = NaN` and the operation
resolves successfully with the string `"#NaNNaNNaN"`. -/
theorem zeroPixels_resolves_NaN :
    averageColorOnLoad [] = "#NaNNaNNaN" ∧
    (computeAverageColorRun ⟨true, true, true⟩ (ImageSource.url "zero.png")
      (DecodeEvent.onLoad (Except.ok []))).result = Except.ok "#NaNNaNNaN" := by
  constructor
  · decide
  · have h : averageColorOnLoad [] = "#NaNNaNNaN" := by decide
    simp [computeAverageColorRun, handleSource, h]

/-! ### Run-model lemmas (effects and frame conditions) -/

theorem run_finalSource (env : Env) (src : ImageSource) (ev : DecodeEvent) :
    (computeAverageColorRun env src ev).finalSource = src := by
  rw [computeAverageColorRun]
  repeat' first | rfl | split

/-- **C4 (failing-input evaluation).** For a `File` input, the object URL
is revoked exactly once on the success outcome, but zero times on the
decode-failure outcome (`img.onerror`) and zero times when reading back
pixel data throws: the cleanup sits only in the success branch. -/
theorem fileObjectURL_revoke_counts :
    countRevokes (computeAverageColorRun ⟨true, true, true⟩
      (ImageSource.file "blob:demo") DecodeEvent.onError).effects = 0 ∧
    countRevokes (computeAverageColorRun ⟨true, true, true⟩
      (ImageSource.file "blob:demo")
      (DecodeEvent.onLoad (Except.error "tainted"))).effects = 0 ∧
    countRevokes (computeAverageColorRun ⟨true, true, true⟩
      (ImageSource.file "blob:demo")
      (DecodeEvent.onLoad (Except.ok [⟨1, 2, 3, 4⟩]))).effects = 1 ∧
    (computeAverageColorRun ⟨true, true, true⟩ (ImageSource.file "blob:demo")
      DecodeEvent.onError).result = Except.error HexErr.loadError := by
  refine ⟨by decide, by decide, by decide, rfl⟩

/-- **C6.** When the host lacks `window` or `document`, the run fails
immediately with the environment error, with an empty effect trace (no
canvas, no object URL) for every input variant and decode event. -/
theorem environmentCheck_first (env : Env) (src : ImageSource)
    (ev : DecodeEvent) (h : env.hasWindow = false ∨ env.hasDocument = false) :
    computeAverageColorRun env src ev =
      { result := Except.error HexErr.environmentError, effects := [],
        finalSource := src } := by
  rcases h with h | h <;> simp [computeAverageColorRun, h]

/-- Witness for C6: no-window host, `File` input, successful decode event. -/
theorem environmentCheck_first_witness :
    computeAverageColorRun ⟨false, true, true⟩ (ImageSource.file "blob:x")
      (DecodeEvent.onLoad (Except.ok [⟨1, 2, 3, 4⟩])) =
      { result := Except.error HexErr.environmentError, effects := [],
        finalSource := ImageSource.file "blob:x" } :=
  environmentCheck_first ⟨false, true, true⟩ (ImageSource.file "blob:x")
    (DecodeEvent.onLoad (Except.ok [⟨1, 2, 3, 4⟩])) (Or.inl rfl)

/-- **C10.** The element input is never mutated: the dispatch only copies
`src` and `crossOrigin` onto the fresh `Image`, and the element state at
completion equals the input for every environment and decode event. -/
theorem elementInput_not_mutated (e : ImgElem) (env : Env) (ev : DecodeEvent)
    (img0 : ImgElem) :
    (computeAverageColorRun env (ImageSource.element e) ev).finalSource =
      ImageSource.element e ∧
    handleSource (ImageSource.element e) img0 =
      some ({ img0 with src := e.src, crossOrigin := e.crossOrigin }, []) :=
  ⟨run_finalSource env (ImageSource.element e) ev, rfl⟩

end Hextract
